import Mathlib

/-!
Shallow embedding of the crawlab-vcs git client (`git.go`, `errors.go`,
`constants.go`) in Lean 4.

The client delegates to the go-git engine, which the repository's design
treats as an external collaborator.  The engine's pure bookkeeping
(reference store, remote config, checkout/reset of the working tree) is
modelled concretely on a `Repo` record; its effectful collaborators
(network pull/push, commit creation, staging, SSH key loading) are
parameters bundled in an `Engine` record, so theorems quantify over
every engine behaviour.

Go `interface{}` arguments are modelled by `GoVal`; an unchecked Go type
assertion that fails is modelled by the `panicked` outcome of `Res`.
Machine strings and hashes: a `plumbing.Hash` is its 20-byte digest
(`List Nat`), computed from a hex string exactly as `plumbing.NewHash`
does (decode pairs until an invalid character, copy into a zeroed
20-byte array).
-/

namespace CrawlabVcs

/-- Error values: the package's sentinel errors (`errors.go`) together
with the go-git / transport error values that `git.go` compares against
or that the modelled engine primitives can produce.  `engineErr n`
stands for any other engine error value, so pass-through claims can
quantify over arbitrary errors. -/
inductive GitError where
  | invalidArgsLength
  | unsupportedType
  | invalidOptions
  | invalidActionsForBareRepo
  | repoAlreadyExists
  | invalidRepoPath
  | remoteNotFound
  | remoteExists
  | branchNotFound
  | branchExists
  | branchEmptyName
  | referenceNotFound
  | isBareRepository
  | repositoryAlreadyExists
  | repositoryNotExists
  | objectNotFound
  | branchHashExclusive
  | emptyRemoteRepository
  | noErrAlreadyUpToDate
  | engineErr (n : Nat)
deriving DecidableEq

/-- Outcome of a fallible Go computation: a value, a returned error, or a
runtime panic (from a failed unchecked type assertion). -/
inductive Res (α : Type) where
  | ok (a : α)
  | err (e : GitError)
  | panicked
deriving DecidableEq

/-- A Go `interface{}` argument as passed to the variadic methods:
nil, a string, an `int8`, a `git.ResetMode` (carried as its integer
value), or a value of any other type. -/
inductive GoVal where
  | gnil
  | gstr (s : String)
  | gint8 (n : Int)
  | gmode (m : Int)
  | gother
deriving DecidableEq

/-- Go's unchecked type assertion `v.(string)`: yields the string, or
panics on any non-string value (including nil). -/
def assertString : GoVal → Res String
  | .gstr s => .ok s
  | _ => .panicked

/-- A commit hash: the 20 raw digest bytes (`plumbing.Hash`). -/
abbrev Hash := List Nat

/-- Value of one hex digit character, if valid (`encoding/hex`). -/
def hexDigitVal (c : Char) : Option Nat :=
  if '0' ≤ c ∧ c ≤ '9' then some (c.toNat - 48)
  else if 'a' ≤ c ∧ c ≤ 'f' then some (c.toNat - 87)
  else if 'A' ≤ c ∧ c ≤ 'F' then some (c.toNat - 55)
  else none

/-- `hex.DecodeString`: decode pairs of hex digits, stopping at the
first invalid pair (the prefix decoded so far is returned). -/
def hexDecode : List Char → List Nat
  | c1 :: c2 :: rest =>
    match hexDigitVal c1, hexDigitVal c2 with
    | some hi, some lo => (16 * hi + lo) :: hexDecode rest
    | _, _ => []
  | _ => []

/-- The all-zero hash (`plumbing.ZeroHash`). -/
def zeroHash : Hash := List.replicate 20 0

/-- `plumbing.NewHash`: decode the hex string and copy at most 20 bytes
into a zeroed 20-byte array. -/
def newHash (s : String) : Hash :=
  (hexDecode s.data ++ List.replicate 20 0).take 20

/-- `Hash.IsZero`. -/
def Hash.isZero (h : Hash) : Bool := decide (h = zeroHash)

/-- A `plumbing.ReferenceName` as the client builds them: the zero value
`""`, or `refs/heads/<name>` from `plumbing.NewBranchReferenceName`. -/
inductive RefName where
  | emptyRef
  | branchRef (name : String)
deriving DecidableEq

/-- `plumbing.NewBranchReferenceName`. -/
def newBranchReferenceName (s : String) : RefName := .branchRef s

/-- The HEAD reference: symbolic to a branch, or detached at a hash. -/
inductive HeadState where
  | onBranch (b : String)
  | detachedAt (h : Hash)
deriving DecidableEq

/-- Association-list lookup keyed by strings (models Go map lookup and
the go-git reference store lookup). -/
def lookupAssoc {α : Type} (k : String) : List (String × α) → Option α
  | [] => none
  | (k', v) :: rest => if k' = k then some v else lookupAssoc k rest

/-- Association-list update: overwrite the entry for `k`, or append. -/
def setAssoc {α : Type} (k : String) (v : α) : List (String × α) → List (String × α)
  | [] => [(k, v)]
  | (k', v') :: rest => if k' = k then (k, v) :: rest else (k', v') :: setAssoc k v rest

/-- Association-list deletion (models `sync.Map.Delete`). -/
def delAssoc {α : Type} (k : String) : List (String × α) → List (String × α)
  | [] => []
  | (k', v') :: rest => if k' = k then delAssoc k rest else (k', v') :: delAssoc k rest

/-- Model of an opened go-git repository: commit objects present, branch
references (`refs/heads/<name>` keyed by name), HEAD, the `[branch]`
sections of the config (what `Repository.Branch` / `CreateBranch`
consult), remote configs, and the commit the working tree currently
materializes.  `lastReset` records the (mode, target) of the most
recent reset delegated to the engine's worktree, abstracting the
index/worktree effect of `Worktree.Reset`. -/
structure Repo where
  isBare : Bool
  commits : List Hash
  refs : List (String × Hash)
  head : HeadState
  configBranches : List String
  remotes : List (String × String)
  worktreeAt : Option Hash
  lastReset : Option (Int × Hash)
deriving DecidableEq

/-- A freshly initialized repository (`git.Init` / `git.PlainInit`):
empty object store, no refs, HEAD symbolic to the unborn master. -/
def freshRepo (bare : Bool) : Repo :=
  { isBare := bare, commits := [], refs := [], head := .onBranch "master",
    configBranches := [], remotes := [], worktreeAt := none, lastReset := none }

/-- `Repository.Head()` resolution: a detached HEAD yields its hash, a
symbolic HEAD resolves through the branch refs (`none` = unborn HEAD,
where `Head()` returns `plumbing.ErrReferenceNotFound`). -/
def Repo.resolveHead (r : Repo) : Option Hash :=
  match r.head with
  | .detachedAt h => some h
  | .onBranch b => lookupAssoc b r.refs

/-- `Repository.Worktree()`: fails with `git.ErrIsBareRepository` on a
bare repository. -/
def Repo.worktreeOk (r : Repo) : Res Unit :=
  if r.isBare then .err .isBareRepository else .ok ()

/-- `Repository.Branch(name)`: look up the `[branch "<name>"]` config
section; `git.ErrBranchNotFound` when absent. -/
def Repo.branchConfig (r : Repo) (name : String) : Res Unit :=
  if name ∈ r.configBranches then .ok () else .err .branchNotFound

/-- `Repository.CreateBranch`: validates the config (empty name is
rejected), fails with `git.ErrBranchExists` when the section exists,
otherwise records the branch config section. -/
def Repo.createBranch (r : Repo) (name : String) : Res Repo :=
  if name = "" then .err .branchEmptyName
  else if name ∈ r.configBranches then .err .branchExists
  else .ok { r with configBranches := name :: r.configBranches }

/-- `Storer.SetReference` of a hash reference `refs/heads/<name> ↦ h`. -/
def Repo.setBranchRef (r : Repo) (name : String) (h : Hash) : Repo :=
  { r with refs := setAssoc name h r.refs }

/-- `Repository.Remote(name)` as used by `Init`: config lookup, with
`git.ErrRemoteNotFound` when absent. -/
def Repo.lookupRemote (r : Repo) (name : String) : Res String :=
  match lookupAssoc name r.remotes with
  | some url => .ok url
  | none => .err .remoteNotFound

/-- `Repository.CreateRemote`: validates the config (empty name is
rejected), fails with `git.ErrRemoteExists` if present, otherwise adds
the remote. -/
def Repo.createRemoteCfg (r : Repo) (name url : String) : Res Repo :=
  if name = "" then .err .invalidOptions
  else match lookupAssoc name r.remotes with
    | some _ => .err .remoteExists
    | none => .ok { r with remotes := setAssoc name url r.remotes }

/-- `git.CheckoutOptions` as the client builds them (`Create`, `Force`,
`Keep` are left at their zero values). -/
structure CheckoutOptions where
  branch : RefName
  hash : Hash
deriving DecidableEq

/-- Model of `Worktree.Checkout` (go-git): options are validated (a
non-zero hash together with a branch name is `ErrBranchHashExclusive`);
a non-zero hash checks out that commit detached; otherwise the branch
reference (or HEAD when the branch is empty) is resolved and checked
out, leaving HEAD symbolic on a branch reference. -/
def engineCheckout (r : Repo) (o : CheckoutOptions) : Res Repo :=
  if o.hash.isZero = false ∧ o.branch ≠ RefName.emptyRef then .err .branchHashExclusive
  else if o.hash.isZero = false then
    if o.hash ∈ r.commits then
      .ok { r with head := .detachedAt o.hash, worktreeAt := some o.hash }
    else .err .objectNotFound
  else
    match o.branch with
    | .emptyRef =>
      match r.resolveHead with
      | none => .err .referenceNotFound
      | some h =>
        if h ∈ r.commits then
          .ok { r with head := .detachedAt h, worktreeAt := some h }
        else .err .objectNotFound
    | .branchRef name =>
      match lookupAssoc name r.refs with
      | none => .err .referenceNotFound
      | some h =>
        if h ∈ r.commits then
          .ok { r with head := .onBranch name, worktreeAt := some h }
        else .err .objectNotFound

/-- `git.ResetMode` values (`int8` constants in go-git). -/
def mixedResetMode : Int := 0

/-- `git.HardReset`. -/
def hardResetMode : Int := 1

/-- `git.MergeReset`. -/
def mergeResetMode : Int := 2

/-- `git.SoftReset`. -/
def softResetMode : Int := 3

/-- Model of `Worktree.Reset` with a zero `Commit` option: the target
defaults to HEAD (failing like `Head()` when HEAD is unresolvable); the
engine applies the given mode, recorded in `lastReset`; a hard reset
re-materializes the working tree at the target commit. -/
def engineReset (r : Repo) (mode : Int) : Res Repo :=
  match r.resolveHead with
  | none => .err .referenceNotFound
  | some h =>
    .ok { r with lastReset := some (mode, h),
                 worktreeAt := if mode = hardResetMode then some h else r.worktreeAt }

/-- `GitAuthType` (`constants.go`): none / HTTP basic / SSH key. -/
inductive GitAuthType where
  | tnone
  | thttp
  | tssh
deriving DecidableEq

/-- A resolved `transport.AuthMethod`: HTTP basic auth, or SSH public
keys identified by the parsed signer. -/
inductive AuthMethod where
  | basicAuth (username password : String)
  | publicKeys (signer : Nat)
deriving DecidableEq

/-- `git.PullOptions` as the client builds them. -/
structure PullOptions where
  remoteName : String
  singleBranch : Bool
  auth : Option AuthMethod
deriving DecidableEq

/-- `git.PushOptions` as the client builds them. -/
structure PushOptions where
  remoteName : String
  auth : Option AuthMethod
deriving DecidableEq

/-- The external go-git collaborators the client delegates to, as
abstract behaviours: `commitFn` is `Worktree.Commit`, `addAllFn` is
`Worktree.Add(".")`, `pullFn` is `Worktree.Pull` (network), `pushFn` is
`Remote.Push` (network, local state untouched), and `sshKeyFn` is the
private-key file read plus `ssh.ParsePrivateKey` (path, passphrase). -/
structure Engine where
  commitFn : Repo → String → Res Repo
  addAllFn : Repo → Res Repo
  pullFn : Repo → PullOptions → Res Repo
  pushFn : PushOptions → Option GitError
  sshKeyFn : String → String → Res Nat

/-- `GitOptions` (`git.go`): the client configuration. -/
structure GitOptions where
  path : String
  remoteUrl : String
  isBare : Bool
  isMem : Bool
  authType : GitAuthType
  username : String
  password : String
  privateKeyPath : String
deriving DecidableEq

/-- `GitClient`: the opened repository and the configuration. -/
structure GitClient where
  r : Repo
  opts : GitOptions
deriving DecidableEq

/-- Outcome of a client method call: success or a returned error, each
carrying the client state afterwards (mutations made before the error
persist, as `c.r` is mutated in place in Go), or a panic. -/
inductive CallRes where
  | ok (c : GitClient)
  | err (e : GitError) (c : GitClient)
  | panicked
deriving DecidableEq

/-- `GitRemoteNameOrigin` (`constants.go`). -/
def gitRemoteNameOrigin : String := "origin"

/-- `getBranchAndHashAndIsCreateFromArgs`: with fewer than two arguments
it returns zero values together with `ErrInvalidArgsLength`; otherwise
a nil first/second argument leaves the branch/hash at its zero value
and a non-nil one goes through the unchecked string assertion.  The
error is returned as a component because the caller (`Checkout`)
discards it. -/
def getBranchAndHashAndIsCreateFromArgs (args : List GoVal) :
    Res (RefName × Hash × Option GitError) :=
  if h2 : args.length < 2 then
    .ok (RefName.emptyRef, zeroHash, some .invalidArgsLength)
  else
    let a0 := args.get ⟨0, by omega⟩
    let a1 := args.get ⟨1, by omega⟩
    match (if a0 = GoVal.gnil then Res.ok RefName.emptyRef
           else match assertString a0 with
                | .ok s => .ok (newBranchReferenceName s)
                | .err e => .err e
                | .panicked => .panicked) with
    | .panicked => .panicked
    | .err e => .err e
    | .ok branch =>
      match (if a1 = GoVal.gnil then Res.ok zeroHash
             else match assertString a1 with
                  | .ok s => .ok (newHash s)
                  | .err e => .err e
                  | .panicked => .panicked) with
      | .panicked => .panicked
      | .err e => .err e
      | .ok hash => .ok (branch, hash, none)

/-- `getRemoteNameFromArgs`: no argument is `ErrInvalidArgsLength`, nil
defaults to origin, otherwise the unchecked string assertion. -/
def getRemoteNameFromArgs (args : List GoVal) : Res String :=
  match args with
  | [] => .err .invalidArgsLength
  | a :: _ => if a = .gnil then .ok gitRemoteNameOrigin else assertString a

/-- `getResetMode`: a Go type switch, so no assertion can panic; an
`int8` value yields `git.ResetMode(int8(0))`, a `git.ResetMode` value
is passed through, anything else is `ErrUnsupportedType`. -/
def getResetMode : GoVal → Res Int
  | .gint8 _ => .ok (mixedResetMode)
  | .gmode m => .ok m
  | _ => .err .unsupportedType

/-- `getResetModeFromArgs`: no argument is `ErrInvalidArgsLength`; a nil
first argument leaves the mode at its zero value (mixed). -/
def getResetModeFromArgs (args : List GoVal) : Res Int :=
  match args with
  | [] => .err .invalidArgsLength
  | a :: _ => if a = .gnil then .ok mixedResetMode else getResetMode a

/-- `getGitAuth`: none yields no auth, HTTP yields basic auth, SSH loads
and parses the private key through the engine. -/
def getGitAuth (E : Engine) (t : GitAuthType) (username password keyPath : String) :
    Res (Option AuthMethod) :=
  match t with
  | .tnone => .ok none
  | .thttp => .ok (some (.basicAuth username password))
  | .tssh =>
    match E.sshKeyFn keyPath password with
    | .ok signer => .ok (some (.publicKeys signer))
    | .err e => .err e
    | .panicked => .panicked

/-- `GitClient.Checkout`: bare check, argument parsing (whose returned
error the source discards by immediately reassigning `err`), worktree
retrieval, then checkout options whose hash branch is inverted in the
source: a zero parsed hash is used as-is, while a NON-zero parsed hash
is replaced by the current HEAD hash. -/
def GitClient.Checkout (c : GitClient) (args : List GoVal) : CallRes :=
  if c.opts.isBare then .err .invalidActionsForBareRepo c
  else
    match getBranchAndHashAndIsCreateFromArgs args with
    | .panicked => .panicked
    | .err e => .err e c
    | .ok (branch, hash, _discardedErr) =>
      match c.r.worktreeOk with
      | .err e => .err e c
      | .panicked => .panicked
      | .ok _ =>
        match (if hash.isZero then Res.ok { branch := branch, hash := hash : CheckoutOptions }
               else match c.r.resolveHead with
                    | none => .err .referenceNotFound
                    | some hh => .ok { branch := branch, hash := hh : CheckoutOptions }) with
        | .panicked => .panicked
        | .err e => .err e c
        | .ok o =>
          match engineCheckout c.r o with
          | .ok r' => .ok { c with r := r' }
          | .err e => .err e c
          | .panicked => .panicked

/-- `GitClient.CheckoutBranch`: bare check; if the branch config section
is absent, create it and (when HEAD resolves; a HEAD error is silently
ignored) set `refs/heads/<branch>` to the HEAD hash; finally delegate
to `Checkout(branch, nil)`. -/
def GitClient.CheckoutBranch (c : GitClient) (branch : String) : CallRes :=
  if c.opts.isBare then .err .invalidActionsForBareRepo c
  else
    match c.r.branchConfig branch with
    | .ok _ => c.Checkout [GoVal.gstr branch, GoVal.gnil]
    | .panicked => .panicked
    | .err e =>
      if e = .branchNotFound then
        match c.r.createBranch branch with
        | .err e' => .err e' c
        | .panicked => .panicked
        | .ok r1 =>
          match r1.resolveHead with
          | none => GitClient.Checkout { c with r := r1 } [GoVal.gstr branch, GoVal.gnil]
          | some hh =>
            GitClient.Checkout { c with r := r1.setBranchRef branch hh }
              [GoVal.gstr branch, GoVal.gnil]
      else .err e c

/-- `GitClient.CheckoutHash`: bare check, then `Checkout(nil, hash)`. -/
def GitClient.CheckoutHash (c : GitClient) (hash : String) : CallRes :=
  if c.opts.isBare then .err .invalidActionsForBareRepo c
  else c.Checkout [GoVal.gnil, GoVal.gstr hash]

/-- `GitClient.Commit`: bare check, worktree retrieval, then the engine
commit (the produced hash is discarded by the source). -/
def GitClient.Commit (E : Engine) (c : GitClient) (msg : String) : CallRes :=
  if c.opts.isBare then .err .invalidActionsForBareRepo c
  else
    match c.r.worktreeOk with
    | .err e => .err e c
    | .panicked => .panicked
    | .ok _ =>
      match E.commitFn c.r msg with
      | .ok r' => .ok { c with r := r' }
      | .err e => .err e c
      | .panicked => .panicked

/-- `GitClient.CommitAll`: bare check, worktree retrieval, stage all
changes, then `Commit`. -/
def GitClient.CommitAll (E : Engine) (c : GitClient) (msg : String) : CallRes :=
  if c.opts.isBare then .err .invalidActionsForBareRepo c
  else
    match c.r.worktreeOk with
    | .err e => .err e c
    | .panicked => .panicked
    | .ok _ =>
      match E.addAllFn c.r with
      | .err e => .err e c
      | .panicked => .panicked
      | .ok r1 => GitClient.Commit E { c with r := r1 } msg

/-- `GitClient.Pull`: bare check, remote-name parsing, worktree
retrieval, auth resolution, then the engine pull, tolerating
`transport.ErrEmptyRemoteRepository` and `git.NoErrAlreadyUpToDate` as
success; every other engine error is returned unchanged. -/
def GitClient.Pull (E : Engine) (c : GitClient) (args : List GoVal) : CallRes :=
  if c.opts.isBare then .err .invalidActionsForBareRepo c
  else
    match getRemoteNameFromArgs args with
    | .panicked => .panicked
    | .err e => .err e c
    | .ok remoteName =>
      match c.r.worktreeOk with
      | .err e => .err e c
      | .panicked => .panicked
      | .ok _ =>
        match getGitAuth E c.opts.authType c.opts.username c.opts.password c.opts.privateKeyPath with
        | .err e => .err e c
        | .panicked => .panicked
        | .ok auth =>
          match E.pullFn c.r { remoteName := remoteName, singleBranch := true, auth := auth } with
          | .ok r' => .ok { c with r := r' }
          | .panicked => .panicked
          | .err e =>
            if e = .emptyRemoteRepository then .ok c
            else if e = .noErrAlreadyUpToDate then .ok c
            else .err e c

/-- `GitClient.Push`: bare check, remote-name parsing, remote lookup,
auth resolution, then the engine push (local state untouched). -/
def GitClient.Push (E : Engine) (c : GitClient) (args : List GoVal) : CallRes :=
  if c.opts.isBare then .err .invalidActionsForBareRepo c
  else
    match getRemoteNameFromArgs args with
    | .panicked => .panicked
    | .err e => .err e c
    | .ok remoteName =>
      match c.r.lookupRemote remoteName with
      | .err e => .err e c
      | .panicked => .panicked
      | .ok _ =>
        match getGitAuth E c.opts.authType c.opts.username c.opts.password c.opts.privateKeyPath with
        | .err e => .err e c
        | .panicked => .panicked
        | .ok auth =>
          match E.pushFn { remoteName := remoteName, auth := auth } with
          | some e => .err e c
          | none => .ok c

/-- `GitClient.Reset`: bare check, mode parsing, worktree retrieval,
then the engine reset with the computed mode. -/
def GitClient.Reset (c : GitClient) (args : List GoVal) : CallRes :=
  if c.opts.isBare then .err .invalidActionsForBareRepo c
  else
    match getResetModeFromArgs args with
    | .panicked => .panicked
    | .err e => .err e c
    | .ok mode =>
      match c.r.worktreeOk with
      | .err e => .err e c
      | .panicked => .panicked
      | .ok _ =>
        match engineReset c.r mode with
        | .ok r' => .ok { c with r := r' }
        | .err e => .err e c
        | .panicked => .panicked

/-- `GitClient.CreateRemote` (method): bare check, then the go-git
`CreateRemote` on the repository config. -/
def GitClient.CreateRemote (c : GitClient) (name url : String) : CallRes :=
  if c.opts.isBare then .err .invalidActionsForBareRepo c
  else
    match c.r.createRemoteCfg name url with
    | .ok r' => .ok { c with r := r' }
    | .err e => .err e c
    | .panicked => .panicked

/-- The state outside any one client: existing directories (paths in
this model are already absolute, so `filepath.Abs` is the identity),
paths whose `.git` directory exists, on-disk repositories by path, and
the two process-wide in-memory registries `GitMemStorages` (a storage
holds at most one repository) and `GitMemFileSystem` (only the presence
of the billy filesystem matters here). -/
structure World where
  dirs : List String
  dotGit : List String
  diskRepos : List (String × Repo)
  memStorages : List (String × Option Repo)
  memFsKeys : List String
deriving DecidableEq

/-- `git.PlainInit`: fails with `git.ErrRepositoryAlreadyExists` when a
repository is already stored at the path, otherwise creates a fresh
repository there (a non-bare one gets a `.git` directory). -/
def plainInit (w : World) (path : String) (bare : Bool) : Res Repo × World :=
  match lookupAssoc path w.diskRepos with
  | some _ => (.err .repositoryAlreadyExists, w)
  | none =>
    let r := freshRepo bare
    (.ok r, { w with diskRepos := setAssoc path r w.diskRepos,
                     dotGit := if bare then w.dotGit else path :: w.dotGit })

/-- `git.PlainOpen`: opens the repository stored at the path, failing
with `git.ErrRepositoryNotExists` when there is none. -/
def plainOpen (w : World) (path : String) : Res Repo :=
  match lookupAssoc path w.diskRepos with
  | some r => .ok r
  | none => .err .repositoryNotExists

/-- `GetMemStorageAndMemFs`: load or create the storage and filesystem
registry entries for the key (the source's type switches only ever see
the types this code stores, so they collapse in the model). -/
def getMemStorageAndMemFs (w : World) (key : String) : Option Repo × World :=
  let (storage, w1) :=
    match lookupAssoc key w.memStorages with
    | some s => (s, w)
    | none => ((none : Option Repo), { w with memStorages := setAssoc key none w.memStorages })
  let w2 :=
    if key ∈ w1.memFsKeys then w1
    else { w1 with memFsKeys := key :: w1.memFsKeys }
  (storage, w2)

/-- `GitClient.InitMem`: options are validated (`IsMem` must be set and
the path non-empty), the registry entries are fetched, then `git.Init`
on the storage and worktree — which yields a non-bare repository — and
on `git.ErrRepositoryAlreadyExists` the stored repository is opened. -/
def GitClient.InitMem (opts : GitOptions) (w : World) : Res Repo × World :=
  if opts.isMem = false ∨ opts.path = "" then (.err .invalidOptions, w)
  else
    let (storage, w1) := getMemStorageAndMemFs w opts.path
    match storage with
    | some r => (.ok r, w1)
    | none =>
      let r := freshRepo false
      (.ok r, { w1 with memStorages := setAssoc opts.path (some r) w1.memStorages })

/-- `GitClient.InitFs`: the path must be non-empty; the directory is
created when absent; if no `.git` directory exists the repository is
initialized with `git.PlainInit` (honouring the bare flag), otherwise
it is opened with `git.PlainOpen`. -/
def GitClient.InitFs (opts : GitOptions) (w : World) : Res Repo × World :=
  if opts.path = "" then (.err .invalidOptions, w)
  else
    let w1 := if opts.path ∈ w.dirs then w else { w with dirs := opts.path :: w.dirs }
    if opts.path ∈ w1.dotGit then
      (plainOpen w1 opts.path, w1)
    else
      plainInit w1 opts.path opts.isBare

/-- `GitClient.GetInitType` on the options: memory when `IsMem`. -/
def GitClient.isMemType (opts : GitOptions) : Bool := opts.isMem

/-- The backend dispatch at the top of `GitClient.Init`: `InitMem` for
a memory client, `InitFs` otherwise. -/
def GitClient.initBackend (opts : GitOptions) (w : World) : Res Repo × World :=
  if GitClient.isMemType opts then GitClient.InitMem opts w
  else GitClient.InitFs opts w

/-- `GitClient.Init`: backend init, then — when the client is non-bare,
a remote URL is configured and the repository has no remotes — look up
the default remote, and on `git.ErrRemoteNotFound` create it and pull
from it (propagating any non-tolerated error). -/
def gitInit (E : Engine) (opts : GitOptions) (w : World) : Res GitClient × World :=
  match GitClient.initBackend opts w with
  | (.err e, w1) => (.err e, w1)
  | (.panicked, w1) => (.panicked, w1)
  | (.ok r0, w1) =>
    if opts.isBare = false ∧ opts.remoteUrl ≠ "" ∧ r0.remotes = [] then
      match r0.lookupRemote gitRemoteNameOrigin with
      | .ok _ => (.ok { r := r0, opts := opts }, w1)
      | .panicked => (.panicked, w1)
      | .err e =>
        if e = .remoteNotFound then
          match GitClient.CreateRemote { r := r0, opts := opts } gitRemoteNameOrigin opts.remoteUrl with
          | .err e' _ => (.err e', w1)
          | .panicked => (.panicked, w1)
          | .ok c1 =>
            match GitClient.Pull E c1 [GoVal.gstr gitRemoteNameOrigin] with
            | .ok c2 => (.ok c2, w1)
            | .err e' _ => (.err e', w1)
            | .panicked => (.panicked, w1)
        else (.err e, w1)
    else (.ok { r := r0, opts := opts }, w1)

/-- `GitClient.Dispose`: a filesystem client removes the directory tree
at its (absolute) path; a memory client deletes its key from both
process-wide registries. -/
def GitClient.Dispose (c : GitClient) (w : World) : World :=
  if GitClient.isMemType c.opts then
    { w with memStorages := delAssoc c.opts.path w.memStorages,
             memFsKeys := w.memFsKeys.filter (fun k => k ≠ c.opts.path) }
  else
    { w with dirs := w.dirs.filter (fun p => p ≠ c.opts.path),
             dotGit := w.dotGit.filter (fun p => p ≠ c.opts.path),
             diskRepos := delAssoc c.opts.path w.diskRepos }

/-! ### Concrete sample data used by witnesses and counterexamples -/

/-- A 40-hex-digit commit id. -/
def hexA : String := "aaaaaaaaaaaaaaaaaaaaaaaaaaaaaaaaaaaaaaaa"

/-- A second, distinct 40-hex-digit commit id. -/
def hexB : String := "bbbbbbbbbbbbbbbbbbbbbbbbbbbbbbbbbbbbbbbb"

/-- The digest of `hexA`. -/
def hashA : Hash := newHash hexA

/-- The digest of `hexB`. -/
def hashB : Hash := newHash hexB

/-- A plain non-bare filesystem configuration. -/
def sampleOpts : GitOptions :=
  { path := "/repo", remoteUrl := "", isBare := false, isMem := false,
    authType := .tnone, username := "", password := "", privateKeyPath := "" }

/-- A repository with two commits whose master branch is at `hashA`. -/
def sampleRepo : Repo :=
  { isBare := false, commits := [hashA, hashB], refs := [("master", hashA)],
    head := .onBranch "master", configBranches := [], remotes := [],
    worktreeAt := some hashA, lastReset := none }

/-- A non-bare client on `sampleRepo`. -/
def sampleClient : GitClient := { r := sampleRepo, opts := sampleOpts }

/-- A bare configuration. -/
def bareOpts : GitOptions := { sampleOpts with isBare := true }

/-- A bare client. -/
def bareClient : GitClient :=
  { r := { sampleRepo with isBare := true }, opts := bareOpts }

/-- An engine whose collaborators all succeed without changing state. -/
def idleEngine : Engine :=
  { commitFn := fun r _ => .ok r, addAllFn := fun r => .ok r,
    pullFn := fun r _ => .ok r, pushFn := fun _ => none,
    sshKeyFn := fun _ _ => .ok 0 }

/-- An engine whose pull reports an empty remote repository. -/
def emptyRemoteEngine : Engine :=
  { idleEngine with pullFn := fun _ _ => .err .emptyRemoteRepository }

/-- An engine whose pull reports already-up-to-date. -/
def upToDateEngine : Engine :=
  { idleEngine with pullFn := fun _ _ => .err .noErrAlreadyUpToDate }

/-- An engine whose pull fails with a distinguished transport error. -/
def failPullEngine : Engine :=
  { idleEngine with pullFn := fun _ _ => .err (.engineErr 7) }

/-- A repository that also has a `dev` branch (config section and ref at
`hashB`). -/
def devRepo : Repo :=
  { sampleRepo with refs := [("master", hashA), ("dev", hashB)],
                    configBranches := ["dev"] }

/-- A non-bare client on `devRepo`. -/
def devClient : GitClient := { r := devRepo, opts := sampleOpts }

/-- A world with nothing in it. -/
def emptyWorld : World :=
  { dirs := [], dotGit := [], diskRepos := [], memStorages := [], memFsKeys := [] }

/-- A non-bare filesystem configuration with a remote URL. -/
def c3opts : GitOptions := { sampleOpts with path := "/p", remoteUrl := "http://remote" }

/-- The world after `InitFs` of `c3opts` on the empty world. -/
def c3world1 : World :=
  { dirs := ["/p"], dotGit := ["/p"], diskRepos := [("/p", freshRepo false)],
    memStorages := [], memFsKeys := [] }

/-- The fresh repository extended with the created origin remote. -/
def c3repo1 : Repo := { freshRepo false with remotes := [("origin", "http://remote")] }

/-- The world after `InitFs` of `sampleOpts` on the empty world. -/
def c3world2 : World :=
  { dirs := ["/repo"], dotGit := ["/repo"], diskRepos := [("/repo", freshRepo false)],
    memStorages := [], memFsKeys := [] }

/-- A filesystem configuration whose path holds an existing repository
in the world `w8`. -/
def c8optsB : GitOptions := { sampleOpts with path := "/q" }

/-- An in-memory configuration keyed under `/m`. -/
def c8optsC : GitOptions := { sampleOpts with path := "/m", isMem := true }

/-- A world with one on-disk repository at `/q` and one in-memory
repository under the key `/m`. -/
def w8 : World :=
  { dirs := ["/q"], dotGit := ["/q"], diskRepos := [("/q", sampleRepo)],
    memStorages := [("/m", some devRepo)], memFsKeys := ["/m"] }

/-- An in-memory client whose key is `/m`. -/
def memClient : GitClient := { r := devRepo, opts := c8optsC }

/-- A world holding the on-disk repository of `sampleClient` and two
in-memory registry entries, under `/m` and `/k`. -/
def w9 : World :=
  { dirs := ["/repo"], dotGit := ["/repo"], diskRepos := [("/repo", sampleRepo)],
    memStorages := [("/m", some devRepo), ("/k", none)], memFsKeys := ["/m", "/k"] }

/-! ### Helper lemmas on the association-list primitives -/

theorem lookupAssoc_setAssoc_self {α : Type} (k : String) (v : α) (l : List (String × α)) :
    lookupAssoc k (setAssoc k v l) = some v := by
  induction l with
  | nil => simp [setAssoc, lookupAssoc]
  | cons p rest ih =>
    obtain ⟨k', v'⟩ := p
    by_cases h : k' = k
    · simp [setAssoc, h, lookupAssoc]
    · simp [setAssoc, h, lookupAssoc, ih]

theorem lookupAssoc_delAssoc_self {α : Type} (k : String) (l : List (String × α)) :
    lookupAssoc k (delAssoc k l) = none := by
  induction l with
  | nil => simp [delAssoc, lookupAssoc]
  | cons p rest ih =>
    obtain ⟨k', v'⟩ := p
    by_cases h : k' = k
    · simp [delAssoc, h, ih]
    · simp [delAssoc, h, lookupAssoc, ih]

theorem lookupAssoc_delAssoc_other {α : Type} (k k' : String) (l : List (String × α))
    (hk : k' ≠ k) : lookupAssoc k' (delAssoc k l) = lookupAssoc k' l := by
  induction l with
  | nil => simp [delAssoc]
  | cons p rest ih =>
    obtain ⟨k0, v0⟩ := p
    by_cases h : k0 = k
    · simp [delAssoc, h, lookupAssoc, Ne.symm hk, ih]
    · simp [delAssoc, h, lookupAssoc, ih]

theorem mem_filter_ne_self (p : String) (l : List String) :
    p ∉ l.filter (fun x => x ≠ p) := by
  intro hmem
  have := List.of_mem_filter hmem
  simp at this

theorem mem_filter_ne_other (p k : String) (l : List String) (hk : k ≠ p) :
    k ∈ l.filter (fun x => x ≠ p) ↔ k ∈ l := by
  constructor
  · intro hmem
    exact List.mem_of_mem_filter hmem
  · intro hmem
    refine List.mem_filter.mpr ⟨hmem, ?_⟩
    simp [hk]

/-! ### Claims -/

/-- C1: the claim says `CheckoutHash(h)` performs a checkout whose
target commit is `h`.  The code inverts the `IsZero` test: a non-zero
parsed hash is replaced by the current HEAD hash, so the checkout
targets the current HEAD and the given hash is ignored.  Evaluated at a
repository whose HEAD (master) is at `hashA` and which also contains
commit `hashB`: `CheckoutHash hexB` succeeds but leaves the working
tree at `hashA`, not at `hashB`. -/
theorem c1_checkoutHash_targets_head_not_hash :
    GitClient.CheckoutHash sampleClient hexB =
      CallRes.ok { sampleClient with
        r := { sampleRepo with head := .detachedAt hashA, worktreeAt := some hashA } } ∧
    newHash hexB ∈ sampleRepo.commits ∧
    hashA ≠ newHash hexB := by decide

/-- C2: the claim says `Checkout` with fewer than two arguments returns
`ErrInvalidArgsLength` and performs no checkout.  The helper does
produce that sentinel, but `Checkout` discards the error (reassigning
`err` on the next line) and proceeds: called with no arguments on a
non-bare client it returns nil after checking out the current HEAD. -/
theorem c2_checkout_short_args_error_discarded :
    getBranchAndHashAndIsCreateFromArgs [] =
      Res.ok (RefName.emptyRef, zeroHash, some .invalidArgsLength) ∧
    GitClient.Checkout sampleClient [] =
      CallRes.ok { sampleClient with
        r := { sampleRepo with head := .detachedAt hashA, worktreeAt := some hashA } } ∧
    GitClient.Checkout sampleClient [] ≠
      CallRes.err .invalidArgsLength sampleClient := by decide

/-- C5: on a client whose configuration has the bare flag set, each of
`Checkout`, `CheckoutBranch`, `CheckoutHash`, `Commit`, `CommitAll`,
`Pull`, `Push` and `Reset` returns `ErrInvalidActionsForBareRepo`
immediately, with the client (and hence the repository) state
unchanged. -/
theorem c5_bare_ops_rejected (E : Engine) (c : GitClient) (args : List GoVal)
    (branch hashStr msg : String) (hbare : c.opts.isBare = true) :
    GitClient.Checkout c args = CallRes.err .invalidActionsForBareRepo c ∧
    GitClient.CheckoutBranch c branch = CallRes.err .invalidActionsForBareRepo c ∧
    GitClient.CheckoutHash c hashStr = CallRes.err .invalidActionsForBareRepo c ∧
    GitClient.Commit E c msg = CallRes.err .invalidActionsForBareRepo c ∧
    GitClient.CommitAll E c msg = CallRes.err .invalidActionsForBareRepo c ∧
    GitClient.Pull E c args = CallRes.err .invalidActionsForBareRepo c ∧
    GitClient.Push E c args = CallRes.err .invalidActionsForBareRepo c ∧
    GitClient.Reset c args = CallRes.err .invalidActionsForBareRepo c := by
  refine ⟨?_, ?_, ?_, ?_, ?_, ?_, ?_, ?_⟩ <;>
    simp [GitClient.Checkout, GitClient.CheckoutBranch, GitClient.CheckoutHash,
      GitClient.Commit, GitClient.CommitAll, GitClient.Pull, GitClient.Push,
      GitClient.Reset, hbare]

/-- Witness for C5 at a concrete bare client and engine. -/
theorem c5_bare_ops_rejected_witness :
    GitClient.Checkout bareClient [] = CallRes.err .invalidActionsForBareRepo bareClient ∧
    GitClient.CheckoutBranch bareClient "b" = CallRes.err .invalidActionsForBareRepo bareClient ∧
    GitClient.CheckoutHash bareClient hexA = CallRes.err .invalidActionsForBareRepo bareClient ∧
    GitClient.Commit idleEngine bareClient "m" = CallRes.err .invalidActionsForBareRepo bareClient ∧
    GitClient.CommitAll idleEngine bareClient "m" = CallRes.err .invalidActionsForBareRepo bareClient ∧
    GitClient.Pull idleEngine bareClient [] = CallRes.err .invalidActionsForBareRepo bareClient ∧
    GitClient.Push idleEngine bareClient [] = CallRes.err .invalidActionsForBareRepo bareClient ∧
    GitClient.Reset bareClient [] = CallRes.err .invalidActionsForBareRepo bareClient :=
  c5_bare_ops_rejected idleEngine bareClient [] "b" hexA "m" rfl

/-- C4: for a non-bare client whose arguments parse to a remote name and
whose authentication resolves, `Pull` maps the delegated engine pull's
outcome as follows: success is success, an empty-remote-repository or
already-up-to-date error is converted to success (nil error, state
unchanged), and every other error is returned to the caller
unchanged. -/
theorem c4_pull_engine_error_passthrough (E : Engine) (c : GitClient) (args : List GoVal)
    (remoteName : String) (auth : Option AuthMethod)
    (hbare : c.opts.isBare = false) (hrb : c.r.isBare = false)
    (hrn : getRemoteNameFromArgs args = .ok remoteName)
    (hauth : getGitAuth E c.opts.authType c.opts.username c.opts.password
      c.opts.privateKeyPath = .ok auth) :
    GitClient.Pull E c args =
      (match E.pullFn c.r { remoteName := remoteName, singleBranch := true, auth := auth } with
       | .ok r' => CallRes.ok { c with r := r' }
       | .panicked => CallRes.panicked
       | .err e =>
         if e = .emptyRemoteRepository then CallRes.ok c
         else if e = .noErrAlreadyUpToDate then CallRes.ok c
         else CallRes.err e c) := by
  simp [GitClient.Pull, hbare, hrn, Repo.worktreeOk, hrb, hauth]

/-- Witness for C4: a tolerated empty-remote pull and a tolerated
already-up-to-date pull both succeed, and a distinguished transport
error comes back unchanged. -/
theorem c4_pull_engine_error_passthrough_witness :
    GitClient.Pull emptyRemoteEngine sampleClient [GoVal.gnil] = CallRes.ok sampleClient ∧
    GitClient.Pull upToDateEngine sampleClient [GoVal.gnil] = CallRes.ok sampleClient ∧
    GitClient.Pull failPullEngine sampleClient [GoVal.gnil] =
      CallRes.err (.engineErr 7) sampleClient :=
  ⟨c4_pull_engine_error_passthrough emptyRemoteEngine sampleClient [GoVal.gnil]
      gitRemoteNameOrigin none rfl rfl rfl rfl,
   c4_pull_engine_error_passthrough upToDateEngine sampleClient [GoVal.gnil]
      gitRemoteNameOrigin none rfl rfl rfl rfl,
   c4_pull_engine_error_passthrough failPullEngine sampleClient [GoVal.gnil]
      gitRemoteNameOrigin none rfl rfl rfl rfl⟩

/-- C6 counterexample: the claim says that for every supported
reset-mode argument `Reset` delegates exactly the caller's mode.  An
`int8` argument is supported (no error), yet `getResetMode` maps every
`int8` to `git.ResetMode(int8(0))`: passing the `int8` value of
`git.SoftReset` (3) makes the engine apply `MixedReset` (0). -/
theorem c6_reset_int8_flattened_counterexample :
    GitClient.Reset sampleClient [GoVal.gint8 3] =
      CallRes.ok { sampleClient with
        r := { sampleRepo with lastReset := some (mixedResetMode, hashA) } } ∧
    (3 : Int) = softResetMode ∧
    mixedResetMode ≠ softResetMode := by decide

/-- C6 (amended): on a non-bare client with a resolvable HEAD, a
`git.ResetMode` argument is delegated to the engine exactly; an `int8`
argument is delegated as `MixedReset` (0) regardless of its value; an
argument of an unsupported type yields `ErrUnsupportedType` with the
state unchanged. -/
theorem c6_reset_mode_delegation (c : GitClient) (m n : Int) (h0 : Hash)
    (hbare : c.opts.isBare = false) (hrb : c.r.isBare = false)
    (hhead : c.r.resolveHead = some h0) :
    GitClient.Reset c [GoVal.gmode m] =
      CallRes.ok { c with r :=
        { c.r with
            lastReset := some (m, h0),
            worktreeAt := (if m = hardResetMode then some h0 else c.r.worktreeAt) } } ∧
    GitClient.Reset c [GoVal.gint8 n] =
      CallRes.ok { c with r :=
        { c.r with
            lastReset := some (mixedResetMode, h0),
            worktreeAt := c.r.worktreeAt } } ∧
    GitClient.Reset c [GoVal.gother] = CallRes.err .unsupportedType c := by
  refine ⟨?_, ?_, ?_⟩ <;>
    simp [GitClient.Reset, hbare, getResetModeFromArgs, getResetMode,
      Repo.worktreeOk, hrb, engineReset, hhead, mixedResetMode, hardResetMode]

/-- Witness for C6 (amended) at a concrete client: a soft reset is
delegated as soft, an `int8` 1 (the value of `HardReset`) as mixed, and
an unsupported argument is rejected. -/
theorem c6_reset_mode_delegation_witness :
    GitClient.Reset sampleClient [GoVal.gmode softResetMode] =
      CallRes.ok { sampleClient with r :=
        { sampleRepo with
            lastReset := some (softResetMode, hashA),
            worktreeAt := (if softResetMode = hardResetMode then some hashA
              else sampleRepo.worktreeAt) } } ∧
    GitClient.Reset sampleClient [GoVal.gint8 1] =
      CallRes.ok { sampleClient with r :=
        { sampleRepo with
            lastReset := some (mixedResetMode, hashA),
            worktreeAt := sampleRepo.worktreeAt } } ∧
    GitClient.Reset sampleClient [GoVal.gother] =
      CallRes.err .unsupportedType sampleClient :=
  c6_reset_mode_delegation sampleClient softResetMode 1 hashA rfl rfl (by decide)

/-- The zero hash is zero. -/
@[simp] theorem isZero_zeroHash : Hash.isZero zeroHash = true := by decide

/-- C7: on a non-bare client whose HEAD resolves to a commit `h0` that
is present: checking out a branch name with no config section and no
ref creates the config section, sets `refs/heads/<name>` to `h0`,
and switches the working tree to that branch (HEAD symbolic on it,
working tree at `h0`) — and the created reference points at the HEAD
commit; checking out a branch that exists (config section and ref at a
present commit `hb`) switches to it without touching the references or
the config. -/
theorem c7_checkout_branch_create_or_switch
    (c1 c2 : GitClient) (name1 name2 : String) (h0 hb : Hash)
    (hbare1 : c1.opts.isBare = false) (hrb1 : c1.r.isBare = false)
    (hname1 : name1 ≠ "")
    (hcfg1 : name1 ∉ c1.r.configBranches)
    (hhead1 : c1.r.resolveHead = some h0)
    (hmem1 : h0 ∈ c1.r.commits)
    (hbare2 : c2.opts.isBare = false) (hrb2 : c2.r.isBare = false)
    (hcfg2 : name2 ∈ c2.r.configBranches)
    (href2 : lookupAssoc name2 c2.r.refs = some hb)
    (hmem2 : hb ∈ c2.r.commits) :
    GitClient.CheckoutBranch c1 name1 =
      CallRes.ok { c1 with r :=
        { c1.r with
            configBranches := name1 :: c1.r.configBranches,
            refs := setAssoc name1 h0 c1.r.refs,
            head := .onBranch name1,
            worktreeAt := some h0 } } ∧
    lookupAssoc name1 (setAssoc name1 h0 c1.r.refs) = some h0 ∧
    GitClient.CheckoutBranch c2 name2 =
      CallRes.ok { c2 with r :=
        { c2.r with head := .onBranch name2, worktreeAt := some hb } } := by
  refine ⟨?_, lookupAssoc_setAssoc_self _ _ _, ?_⟩
  · rcases hc : c1.r.head with b | h
    · have hl : lookupAssoc b c1.r.refs = some h0 := by
        simpa [Repo.resolveHead, hc] using hhead1
      simp [GitClient.CheckoutBranch, hbare1, Repo.branchConfig, hcfg1,
        Repo.createBranch, hname1, Repo.resolveHead, hc, hl, Repo.setBranchRef,
        GitClient.Checkout, getBranchAndHashAndIsCreateFromArgs, assertString,
        newBranchReferenceName, Repo.worktreeOk, hrb1, engineCheckout,
        lookupAssoc_setAssoc_self, hmem1]
    · have hh : h = h0 := by simpa [Repo.resolveHead, hc] using hhead1
      subst hh
      simp [GitClient.CheckoutBranch, hbare1, Repo.branchConfig, hcfg1,
        Repo.createBranch, hname1, Repo.resolveHead, hc, Repo.setBranchRef,
        GitClient.Checkout, getBranchAndHashAndIsCreateFromArgs, assertString,
        newBranchReferenceName, Repo.worktreeOk, hrb1, engineCheckout,
        lookupAssoc_setAssoc_self, hmem1]
  · simp [GitClient.CheckoutBranch, hbare2, Repo.branchConfig, hcfg2,
      GitClient.Checkout, getBranchAndHashAndIsCreateFromArgs, assertString,
      newBranchReferenceName, Repo.worktreeOk, hrb2, engineCheckout, href2, hmem2]

/-- Witness for C7: on `sampleClient` (no `test` branch) the checkout
creates and switches; on `devClient` (existing `dev` branch at `hashB`)
it switches. -/
theorem c7_checkout_branch_create_or_switch_witness :
    GitClient.CheckoutBranch sampleClient "test" =
      CallRes.ok { sampleClient with r :=
        { sampleRepo with
            configBranches := "test" :: sampleRepo.configBranches,
            refs := setAssoc "test" hashA sampleRepo.refs,
            head := .onBranch "test",
            worktreeAt := some hashA } } ∧
    lookupAssoc "test" (setAssoc "test" hashA sampleRepo.refs) = some hashA ∧
    GitClient.CheckoutBranch devClient "dev" =
      CallRes.ok { devClient with r :=
        { devRepo with head := .onBranch "dev", worktreeAt := some hashB } } :=
  c7_checkout_branch_create_or_switch sampleClient devClient "test" "dev" hashA hashB
    rfl rfl (by decide) (by decide) (by decide) (by decide)
    rfl rfl (by decide) (by decide) (by decide)

/-- C3: after a successful backend init yielding repository `r0` (with
auth resolving to `a`), `Init` creates the default remote `origin`
pointing at the configured URL and then performs an initial pull
exactly when the client is non-bare, the remote URL is non-empty, and
`r0` has no remotes: in that case the engine pull is invoked on the
repository extended with the origin remote (`r1`), a successful or
tolerated pull leaves that remote in place, and a non-tolerated pull
error is propagated; in every other case `Init` returns with the
repository — in particular its remote configuration — unchanged. -/
theorem c3_init_creates_remote_and_pulls_iff
    (E : Engine) (opts : GitOptions) (w w1 : World) (r0 r1 r2 : Repo)
    (a : Option AuthMethod) (popts : PullOptions) (e : GitError)
    (hb : GitClient.initBackend opts w = (.ok r0, w1))
    (hauth : getGitAuth E opts.authType opts.username opts.password
      opts.privateKeyPath = .ok a)
    (hr1 : r1 = { r0 with remotes := setAssoc gitRemoteNameOrigin opts.remoteUrl r0.remotes })
    (hpo : popts = { remoteName := gitRemoteNameOrigin, singleBranch := true, auth := a }) :
    ((opts.isBare = false ∧ opts.remoteUrl ≠ "" ∧ r0.remotes = []) → r0.isBare = false →
      (E.pullFn r1 popts = .ok r2 →
        gitInit E opts w = (.ok { r := r2, opts := opts }, w1)) ∧
      (E.pullFn r1 popts = .err .emptyRemoteRepository →
        gitInit E opts w = (.ok { r := r1, opts := opts }, w1)) ∧
      (E.pullFn r1 popts = .err e → e ≠ .emptyRemoteRepository →
        e ≠ .noErrAlreadyUpToDate →
        gitInit E opts w = (.err e, w1))) ∧
    (¬ (opts.isBare = false ∧ opts.remoteUrl ≠ "" ∧ r0.remotes = []) →
      gitInit E opts w = (.ok { r := r0, opts := opts }, w1)) := by
  subst hr1 hpo
  constructor
  · rintro ⟨hnb, hurl, hrem⟩ hr0b
    refine ⟨?_, ?_, ?_⟩
    · intro hpull
      simp only [hr0b, hrem, gitRemoteNameOrigin] at hpull
      simp [gitInit, hb, hnb, hurl, hrem, Repo.lookupRemote, lookupAssoc,
        GitClient.CreateRemote, Repo.createRemoteCfg, gitRemoteNameOrigin,
        GitClient.Pull, getRemoteNameFromArgs, assertString, Repo.worktreeOk,
        hr0b, hauth, hpull]
    · intro hpull
      simp only [hr0b, hrem, gitRemoteNameOrigin] at hpull
      simp [gitInit, hb, hnb, hurl, hrem, Repo.lookupRemote, lookupAssoc,
        GitClient.CreateRemote, Repo.createRemoteCfg, gitRemoteNameOrigin,
        GitClient.Pull, getRemoteNameFromArgs, assertString, Repo.worktreeOk,
        hr0b, hauth, hpull]
    · intro hpull he1 he2
      simp only [hr0b, hrem, gitRemoteNameOrigin] at hpull
      simp [gitInit, hb, hnb, hurl, hrem, Repo.lookupRemote, lookupAssoc,
        GitClient.CreateRemote, Repo.createRemoteCfg, gitRemoteNameOrigin,
        GitClient.Pull, getRemoteNameFromArgs, assertString, Repo.worktreeOk,
        hr0b, hauth, hpull, he1, he2]
  · intro hnc
    simp [gitInit, hb, hnc]

/-- Witness for C3: on an empty world, an init with a configured remote
URL creates the origin remote and pulls (a tolerated empty-remote pull
leaves the created remote in place; a failing pull propagates its
error), while an init without a remote URL leaves the fresh repository
without remotes. -/
theorem c3_init_creates_remote_and_pulls_iff_witness :
    gitInit emptyRemoteEngine c3opts emptyWorld =
      (.ok { r := c3repo1, opts := c3opts }, c3world1) ∧
    gitInit failPullEngine c3opts emptyWorld = (.err (.engineErr 7), c3world1) ∧
    gitInit idleEngine sampleOpts emptyWorld =
      (.ok { r := freshRepo false, opts := sampleOpts }, c3world2) :=
  ⟨((c3_init_creates_remote_and_pulls_iff emptyRemoteEngine c3opts emptyWorld c3world1
      (freshRepo false) c3repo1 (freshRepo false) none
      { remoteName := gitRemoteNameOrigin, singleBranch := true, auth := none }
      (.engineErr 7) (by decide) rfl (by decide) rfl).1
        ⟨rfl, by decide, rfl⟩ rfl).2.1 rfl,
   ((c3_init_creates_remote_and_pulls_iff failPullEngine c3opts emptyWorld c3world1
      (freshRepo false) c3repo1 (freshRepo false) none
      { remoteName := gitRemoteNameOrigin, singleBranch := true, auth := none }
      (.engineErr 7) (by decide) rfl (by decide) rfl).1
        ⟨rfl, by decide, rfl⟩ rfl).2.2 rfl (by decide) (by decide),
   (c3_init_creates_remote_and_pulls_iff idleEngine sampleOpts emptyWorld c3world2
      (freshRepo false)
      { freshRepo false with
          remotes := setAssoc gitRemoteNameOrigin sampleOpts.remoteUrl (freshRepo false).remotes }
      (freshRepo false) none
      { remoteName := gitRemoteNameOrigin, singleBranch := true, auth := none }
      (.engineErr 7) (by decide) rfl (by decide) rfl).2 (by decide)⟩

/-- C8: `InitFs` on a path with no `.git` directory (and no directory at
all) creates the directory and initializes a fresh repository there
(honouring the bare flag); `InitFs` on a path holding an existing
repository (its `.git` present) reopens exactly that repository without
error and without changing the world; `InitMem` on a key whose
registered storage already holds a repository opens that repository
without error and without changing the registries. -/
theorem c8_init_backends_open_or_create
    (optsA optsB optsC : GitOptions) (wA wB wC : World) (rB rC : Repo)
    (hA1 : optsA.path ≠ "") (hA2 : optsA.path ∉ wA.dirs) (hA3 : optsA.path ∉ wA.dotGit)
    (hA4 : lookupAssoc optsA.path wA.diskRepos = none)
    (hB1 : optsB.path ≠ "") (hB2 : optsB.path ∈ wB.dirs) (hB3 : optsB.path ∈ wB.dotGit)
    (hB4 : lookupAssoc optsB.path wB.diskRepos = some rB)
    (hC1 : optsC.isMem = true) (hC2 : optsC.path ≠ "")
    (hC3 : lookupAssoc optsC.path wC.memStorages = some (some rC))
    (hC4 : optsC.path ∈ wC.memFsKeys) :
    GitClient.InitFs optsA wA =
      (.ok (freshRepo optsA.isBare),
       { wA with
           dirs := optsA.path :: wA.dirs,
           dotGit := (if optsA.isBare then wA.dotGit else optsA.path :: wA.dotGit),
           diskRepos := setAssoc optsA.path (freshRepo optsA.isBare) wA.diskRepos }) ∧
    GitClient.InitFs optsB wB = (.ok rB, wB) ∧
    GitClient.InitMem optsC wC = (.ok rC, wC) := by
  refine ⟨?_, ?_, ?_⟩
  · simp [GitClient.InitFs, hA1, hA2, hA3, plainInit, hA4]
  · simp [GitClient.InitFs, hB1, hB2, hB3, plainOpen, hB4]
  · simp [GitClient.InitMem, hC1, hC2, getMemStorageAndMemFs, hC3, hC4]

/-- Witness for C8 on the world `w8`: a fresh path is created and
initialized, the existing on-disk repository at `/q` is reopened, and
the in-memory repository under `/m` is opened, each without error. -/
theorem c8_init_backends_open_or_create_witness :
    GitClient.InitFs sampleOpts w8 =
      (.ok (freshRepo sampleOpts.isBare),
       { w8 with
           dirs := sampleOpts.path :: w8.dirs,
           dotGit := (if sampleOpts.isBare then w8.dotGit else sampleOpts.path :: w8.dotGit),
           diskRepos := setAssoc sampleOpts.path (freshRepo sampleOpts.isBare) w8.diskRepos }) ∧
    GitClient.InitFs c8optsB w8 = (.ok sampleRepo, w8) ∧
    GitClient.InitMem c8optsC w8 = (.ok devRepo, w8) :=
  c8_init_backends_open_or_create sampleOpts c8optsB c8optsC w8 w8 w8 sampleRepo devRepo
    (by decide) (by decide) (by decide) (by decide)
    (by decide) (by decide) (by decide) (by decide)
    rfl (by decide) (by decide) (by decide)

/-- C9: disposing a filesystem client removes its on-disk directory
(and the repository stored there); disposing an in-memory client
deletes its key from both process-wide registries, while every other
key keeps exactly the entries it had. -/
theorem c9_dispose_removes_dir_or_registry_entries
    (cf cm : GitClient) (w : World) (k : String)
    (hf : cf.opts.isMem = false)
    (hm : cm.opts.isMem = true)
    (hk : k ≠ cm.opts.path) :
    cf.opts.path ∉ (GitClient.Dispose cf w).dirs ∧
    lookupAssoc cf.opts.path (GitClient.Dispose cf w).diskRepos = none ∧
    lookupAssoc cm.opts.path (GitClient.Dispose cm w).memStorages = none ∧
    cm.opts.path ∉ (GitClient.Dispose cm w).memFsKeys ∧
    lookupAssoc k (GitClient.Dispose cm w).memStorages = lookupAssoc k w.memStorages ∧
    (k ∈ (GitClient.Dispose cm w).memFsKeys ↔ k ∈ w.memFsKeys) := by
  refine ⟨?_, ?_, ?_, ?_, ?_, ?_⟩
  · simp [GitClient.Dispose, GitClient.isMemType, hf, mem_filter_ne_self]
  · simpa [GitClient.Dispose, GitClient.isMemType, hf] using
      lookupAssoc_delAssoc_self cf.opts.path w.diskRepos
  · simpa [GitClient.Dispose, GitClient.isMemType, hm] using
      lookupAssoc_delAssoc_self cm.opts.path w.memStorages
  · simp [GitClient.Dispose, GitClient.isMemType, hm, mem_filter_ne_self]
  · simpa [GitClient.Dispose, GitClient.isMemType, hm] using
      lookupAssoc_delAssoc_other cm.opts.path k w.memStorages hk
  · simpa [GitClient.Dispose, GitClient.isMemType, hm] using
      mem_filter_ne_other cm.opts.path k w.memFsKeys hk

/-- Witness for C9 on the world `w9`: the filesystem client's directory
and repository are gone, the memory client's two registry entries are
gone, and the unrelated key `/k` keeps its entries. -/
theorem c9_dispose_removes_dir_or_registry_entries_witness :
    sampleClient.opts.path ∉ (GitClient.Dispose sampleClient w9).dirs ∧
    lookupAssoc sampleClient.opts.path (GitClient.Dispose sampleClient w9).diskRepos = none ∧
    lookupAssoc memClient.opts.path (GitClient.Dispose memClient w9).memStorages = none ∧
    memClient.opts.path ∉ (GitClient.Dispose memClient w9).memFsKeys ∧
    lookupAssoc "/k" (GitClient.Dispose memClient w9).memStorages =
      lookupAssoc "/k" w9.memStorages ∧
    ("/k" ∈ (GitClient.Dispose memClient w9).memFsKeys ↔ "/k" ∈ w9.memFsKeys) :=
  c9_dispose_removes_dir_or_registry_entries sampleClient memClient w9 "/k"
    rfl rfl (by decide)

/-- C10 counterexample: the claim says every `Checkout`, `Pull` or
`Push` call whose first variadic argument is non-nil and not a string
panics.  A `Checkout` call with a single such argument returns before
any type assertion (the fewer-than-two-arguments branch), so it does
not panic: on `sampleClient` it even succeeds. -/
theorem c10_checkout_single_nonstring_no_panic :
    GitClient.Checkout sampleClient [GoVal.gother] =
      CallRes.ok { sampleClient with
        r := { sampleRepo with head := .detachedAt hashA, worktreeAt := some hashA } } ∧
    GitClient.Checkout sampleClient [GoVal.gother] ≠ CallRes.panicked := by decide

/-- C10 (amended): on a non-bare client, `Pull` and `Push` panic on
every argument list whose first element is non-nil and not a string,
and so does `Checkout` when given at least two arguments with such a
first element; but a `Checkout` call with exactly one argument returns
before the assertion and never panics. -/
theorem c10_nonstring_first_arg_panics (E : Engine) (c : GitClient)
    (v v2 : GoVal) (rest rest2 : List GoVal)
    (hbare : c.opts.isBare = false)
    (hn : v ≠ .gnil) (hs : ∀ s, v ≠ .gstr s) :
    GitClient.Pull E c (v :: rest) = CallRes.panicked ∧
    GitClient.Push E c (v :: rest) = CallRes.panicked ∧
    GitClient.Checkout c (v :: v2 :: rest2) = CallRes.panicked ∧
    GitClient.Checkout c [v] ≠ CallRes.panicked := by
  have hv : assertString v = .panicked := by
    cases v
    · exact absurd rfl hn
    · exact absurd rfl (hs _)
    · rfl
    · rfl
    · rfl
  have hlen : ¬(rest2.length + 1 + 1 < 2) := by omega
  refine ⟨?_, ?_, ?_, ?_⟩
  · simp [GitClient.Pull, hbare, getRemoteNameFromArgs, hn, hv]
  · simp [GitClient.Push, hbare, getRemoteNameFromArgs, hn, hv]
  · simp [GitClient.Checkout, hbare, getBranchAndHashAndIsCreateFromArgs, hlen, hn, hv]
  · cases hcb : c.r.isBare
    · cases hrh : c.r.resolveHead with
      | none =>
        simp [GitClient.Checkout, hbare, getBranchAndHashAndIsCreateFromArgs,
          Repo.worktreeOk, hcb, engineCheckout, hrh]
      | some h =>
        by_cases hmem : h ∈ c.r.commits
        · simp [GitClient.Checkout, hbare, getBranchAndHashAndIsCreateFromArgs,
            Repo.worktreeOk, hcb, engineCheckout, hrh, hmem]
        · simp [GitClient.Checkout, hbare, getBranchAndHashAndIsCreateFromArgs,
            Repo.worktreeOk, hcb, engineCheckout, hrh, hmem]
    · simp [GitClient.Checkout, hbare, getBranchAndHashAndIsCreateFromArgs,
        Repo.worktreeOk, hcb]

/-- Witness for C10 (amended) at a concrete client. -/
theorem c10_nonstring_first_arg_panics_witness :
    GitClient.Pull idleEngine sampleClient [GoVal.gother] = CallRes.panicked ∧
    GitClient.Push idleEngine sampleClient [GoVal.gother] = CallRes.panicked ∧
    GitClient.Checkout sampleClient [GoVal.gother, GoVal.gnil] = CallRes.panicked ∧
    GitClient.Checkout sampleClient [GoVal.gother] ≠ CallRes.panicked :=
  c10_nonstring_first_arg_panics idleEngine sampleClient .gother .gnil [] []
    rfl (by decide) (fun s h => GoVal.noConfusion h)

end CrawlabVcs
